import Mathlib

/-!
Verification of the go-apk package-management engine specification against a
shallow embedding of the repository's source.

Each section embeds one unit of the source code as executable Lean
definitions and proves (or refutes) the frozen claims about it:

* `Version` / `Compare`        — pkg/version/version.go
* `splitClassify`              — the member-count classification of expandapk Split
* `checkIndexSignature` etc.   — the index loader of pkg/apk/util.go
* `dispatchScheme`             — the URL-scheme switch of GetRepositoryIndexes
* `roundTripEtagFree` etc.     — the cache transport of pkg/apk/cache.go
* `applyDataEntry`             — the installer overlap policy (modelled from the spec)
* `relativeOffset` / `fileSeek` / `fileReadAt` — the tarfs random-access view
-/

namespace GoApk

/-! ## pkg/version/version.go -/

/-- Go constant `packageVersionPreModifierNone` (value 0). -/
def packageVersionPreModifierNone : Int := 0

/-- Go constant `packageVersionPreModifierAlpha` (value 1). -/
def packageVersionPreModifierAlpha : Int := 1

/-- Go constant `packageVersionPreModifierBeta` (value 2). -/
def packageVersionPreModifierBeta : Int := 2

/-- Go constant `packageVersionPreModifierPre` (value 3). -/
def packageVersionPreModifierPre : Int := 3

/-- Go constant `packageVersionPreModifierRC` (value 4). -/
def packageVersionPreModifierRC : Int := 4

/-- Go constant `packageVersionPreModifierMax` (value 1000). -/
def packageVersionPreModifierMax : Int := 1000

/-- Go constant `packageVersionPostModifierNone` (value 0). -/
def packageVersionPostModifierNone : Int := 0

/-- Go constant `packageVersionPostModifierCVS` (value 1). -/
def packageVersionPostModifierCVS : Int := 1

/-- Go constant `packageVersionPostModifierSVN` (value 2). -/
def packageVersionPostModifierSVN : Int := 2

/-- Go constant `packageVersionPostModifierGit` (value 3). -/
def packageVersionPostModifierGit : Int := 3

/-- Go constant `packageVersionPostModifierHG` (value 4). -/
def packageVersionPostModifierHG : Int := 4

/-- Go constant `packageVersionPostModifierP` (value 5). -/
def packageVersionPostModifierP : Int := 5

/-- The `Version` struct of pkg/version/version.go.  Go `int` and `rune`
fields are embedded as `Int` (the letter is the rune code point, 0 when
absent, exactly as in the Go zero value). -/
structure Version where
  numbers : List Int
  letter : Int
  preSuffix : Int
  preSuffixNumber : Int
  postSuffix : Int
  postSuffixNumber : Int
  revision : Int
deriving DecidableEq, Repr

/-- Go constant `greater` of version.go. -/
def greater : Int := 1

/-- Go constant `equal` of version.go. -/
def equal : Int := 0

/-- Go constant `less` of version.go. -/
def less : Int := -1

/-- The number-array comparison at the head of `Compare` (version.go lines
198-212): element-wise over the common prefix, then the longer array wins;
returns `equal` to mean fall-through to the later fields. -/
def compareNumbers : List Int → List Int → Int
  | a :: as, b :: bs =>
    if a > b then greater
    else if a < b then less
    else compareNumbers as bs
  | [], _ :: _ => less
  | _ :: _, [] => greater
  | [], [] => equal

/-- The `Compare` function of pkg/version/version.go (lines 197-273),
transliterated: each early `return` becomes an if-branch, in source order.
Note the pre-suffix 0 (`None`) is rewritten to 1000 (`Max`) before
comparison, while the post-suffix is intentionally left alone. -/
def Compare (actual required : Version) : Int :=
  let cn := compareNumbers actual.numbers required.numbers
  if cn = greater then greater
  else if cn = less then less
  else if actual.letter > required.letter then greater
  else if actual.letter < required.letter then less
  else
    let actualPreSuffix :=
      if actual.preSuffix = packageVersionPreModifierNone then
        packageVersionPreModifierMax
      else actual.preSuffix
    let requiredPreSuffix :=
      if required.preSuffix = packageVersionPreModifierNone then
        packageVersionPreModifierMax
      else required.preSuffix
    if actualPreSuffix > requiredPreSuffix then greater
    else if actualPreSuffix < requiredPreSuffix then less
    else if actual.preSuffixNumber > required.preSuffixNumber then greater
    else if actual.preSuffixNumber < required.preSuffixNumber then less
    else if actual.postSuffix > required.postSuffix then greater
    else if actual.postSuffix < required.postSuffix then less
    else if actual.postSuffixNumber > required.postSuffixNumber then greater
    else if actual.postSuffixNumber < required.postSuffixNumber then less
    else if actual.revision > required.revision then greater
    else if actual.revision < required.revision then less
    else equal

/-- Any output of `compareNumbers` is -1, 0 or 1. -/
theorem compareNumbers_mem : ∀ a b : List Int,
    compareNumbers a b = greater ∨ compareNumbers a b = equal ∨
      compareNumbers a b = less := by
  intro a
  induction a with
  | nil => intro b; cases b <;> simp [compareNumbers, greater, equal, less]
  | cons x xs ih =>
    intro b
    cases b with
    | nil => simp [compareNumbers, greater, equal, less]
    | cons y ys =>
      simp only [compareNumbers]
      split_ifs
      · simp [greater]
      · simp [less]
      · exact ih ys

/-- Comparing a numbers list with itself falls through (returns `equal`). -/
theorem compareNumbers_self : ∀ a : List Int, compareNumbers a a = equal := by
  intro a
  induction a with
  | nil => rfl
  | cons x xs ih => simp [compareNumbers, ih, lt_irrefl]

/-- Swapping the arguments of `compareNumbers` negates the result. -/
theorem compareNumbers_antisymm : ∀ a b : List Int,
    compareNumbers a b = -compareNumbers b a := by
  intro a
  induction a with
  | nil => intro b; cases b <;> simp [compareNumbers, greater, equal, less]
  | cons x xs ih =>
    intro b
    cases b with
    | nil => simp [compareNumbers, greater, equal, less]
    | cons y ys =>
      simp only [compareNumbers, greater, equal, less]
      have h := ih ys
      simp only [greater, equal, less] at h
      split_ifs <;> omega

/-- One step of the lexicographic comparison chain is antisymmetric. -/
theorem cmpStep_antisymm (x y r rr : Int) (h : r = -rr) :
    (if x > y then greater else if x < y then less else r) =
      -(if y > x then greater else if y < x then less else rr) := by
  simp only [greater, less]
  split_ifs <;> omega

/-- The head step of `Compare` (driven by the `compareNumbers` result) is
antisymmetric. -/
theorem cmpHead_antisymm (c cc r rr : Int) (hc : c = -cc)
    (_hm : c = greater ∨ c = equal ∨ c = less) (h : r = -rr) :
    (if c = greater then greater else if c = less then less else r) =
      -(if cc = greater then greater else if cc = less then less else rr) := by
  simp only [greater, equal, less] at *
  split_ifs <;> omega

/-- C7: `Compare` is reflexive — comparing any version with itself yields 0 —
and antisymmetric — swapping the arguments negates the result (so
`sign(Compare(v, w)) = -sign(Compare(w, v))`, since `Compare` only returns
-1, 0 or 1).  Proved for every `Version` value, hence in particular for
every parseable version. -/
theorem compare_refl_antisymm (v w : Version) :
    Compare v v = 0 ∧ Compare v w = -Compare w v := by
  constructor
  · simp +decide [Compare, compareNumbers_self, greater, equal, less]
  · show Compare v w = -Compare w v
    simp only [Compare]
    apply cmpHead_antisymm _ _ _ _ (compareNumbers_antisymm _ _)
      (compareNumbers_mem _ _)
    apply cmpStep_antisymm _ _ _ _
    apply cmpStep_antisymm _ _ _ _
    apply cmpStep_antisymm _ _ _ _
    apply cmpStep_antisymm _ _ _ _
    apply cmpStep_antisymm _ _ _ _
    apply cmpStep_antisymm _ _ _ _
    simp [equal]

/-- C1 counterexample: take `a = 1.0_alpha_p1` (numbers `[1,0]`, no letter,
pre-tag alpha, post-tag p with integer 1) and `b = 1.0`.  Both are parseable,
they agree on their dotted-number arrays and letter suffix, and exactly one
of them (`a`) carries a post-release tag — yet `Compare a b = less`, not
greater, because the comparator examines the pre-release tag first and
`alpha` sorts below the absent pre-tag of `b`.  This refutes the claim as
stated. -/
theorem compare_post_tag_counterexample :
    (Version.mk [1, 0] 0 1 0 5 1 0).numbers =
        (Version.mk [1, 0] 0 0 0 0 0 0).numbers ∧
      (Version.mk [1, 0] 0 1 0 5 1 0).letter =
        (Version.mk [1, 0] 0 0 0 0 0 0).letter ∧
      (Version.mk [1, 0] 0 1 0 5 1 0).postSuffix ≠ packageVersionPostModifierNone ∧
      (Version.mk [1, 0] 0 0 0 0 0 0).postSuffix = packageVersionPostModifierNone ∧
      Compare (Version.mk [1, 0] 0 1 0 5 1 0) (Version.mk [1, 0] 0 0 0 0 0 0) =
        less := by
  refine ⟨rfl, rfl, by decide, rfl, ?_⟩
  decide

/-- C1 amended: for parseable versions `a` and `b` (pre-tag field in 0..4,
post-tag field in 0..5) that agree on their dotted-number arrays and letter
suffix: if exactly one of them carries a pre-release tag, the one without it
compares greater; among present pre-tags the order is alpha < beta < pre <
rc, with ties broken by the pre-suffix integer; *provided the pre-release
tag and its integer also agree*, the version with a post-release tag
compares greater than the one without, among present post-tags the order is
cvs < svn < git < hg < p, ties are broken by the post-suffix integer, and —
provided the post fields also agree — by the `-r` revision integer.  (The
italicised proviso is what the counterexample forces: the comparator checks
pre-release fields before post-release fields.) -/
theorem compare_tags_amended (a b : Version)
    (hna : a.numbers = b.numbers) (hla : a.letter = b.letter)
    (hpa : 0 ≤ a.preSuffix ∧ a.preSuffix ≤ 4)
    (hpb : 0 ≤ b.preSuffix ∧ b.preSuffix ≤ 4)
    (hqa : 0 ≤ a.postSuffix ∧ a.postSuffix ≤ 5)
    (hqb : 0 ≤ b.postSuffix ∧ b.postSuffix ≤ 5) :
    (a.preSuffix = 0 → b.preSuffix ≠ 0 → Compare a b = greater) ∧
      (a.preSuffix ≠ 0 → b.preSuffix ≠ 0 → a.preSuffix < b.preSuffix →
        Compare a b = less) ∧
      (a.preSuffix = b.preSuffix → a.preSuffixNumber < b.preSuffixNumber →
        Compare a b = less) ∧
      (a.preSuffix = b.preSuffix → a.preSuffixNumber = b.preSuffixNumber →
        a.postSuffix ≠ 0 → b.postSuffix = 0 → Compare a b = greater) ∧
      (a.preSuffix = b.preSuffix → a.preSuffixNumber = b.preSuffixNumber →
        a.postSuffix ≠ 0 → b.postSuffix ≠ 0 → a.postSuffix < b.postSuffix →
        Compare a b = less) ∧
      (a.preSuffix = b.preSuffix → a.preSuffixNumber = b.preSuffixNumber →
        a.postSuffix = b.postSuffix → a.postSuffixNumber < b.postSuffixNumber →
        Compare a b = less) ∧
      (a.preSuffix = b.preSuffix → a.preSuffixNumber = b.preSuffixNumber →
        a.postSuffix = b.postSuffix → a.postSuffixNumber = b.postSuffixNumber →
        a.revision < b.revision → Compare a b = less) := by
  have hcn : compareNumbers a.numbers b.numbers = equal := by
    rw [hna]; exact compareNumbers_self _
  refine ⟨?_, ?_, ?_, ?_, ?_, ?_, ?_⟩
  all_goals
    intros
    simp only [Compare]
    rw [hcn]
    simp only [greater, equal, less, packageVersionPreModifierNone,
      packageVersionPreModifierMax, gt_iff_lt]
    rw [if_neg (show ¬ ((0 : Int) = 1) by decide),
      if_neg (show ¬ ((0 : Int) = -1) by decide), hla,
      if_neg (lt_irrefl b.letter), if_neg (lt_irrefl b.letter)]
  case _ h1 h2 =>
    rw [if_pos h1, if_neg h2, if_pos (show b.preSuffix < 1000 by omega)]
  case _ h1 h2 h3 =>
    rw [if_neg h1, if_neg h2,
      if_neg (show ¬ b.preSuffix < a.preSuffix by omega), if_pos h3]
  case _ h1 h2 =>
    rw [h1, if_neg (lt_irrefl _), if_neg (lt_irrefl _),
      if_neg (show ¬ b.preSuffixNumber < a.preSuffixNumber by omega),
      if_pos h2]
  case _ h1 h2 h3 h4 =>
    rw [h1, if_neg (lt_irrefl _), if_neg (lt_irrefl _), h2,
      if_neg (lt_irrefl _), if_neg (lt_irrefl _),
      if_pos (show b.postSuffix < a.postSuffix by omega)]
  case _ h1 h2 h3 h4 h5 =>
    rw [h1, if_neg (lt_irrefl _), if_neg (lt_irrefl _), h2,
      if_neg (lt_irrefl _), if_neg (lt_irrefl _),
      if_neg (show ¬ b.postSuffix < a.postSuffix by omega), if_pos h5]
  case _ h1 h2 h3 h4 =>
    rw [h1, if_neg (lt_irrefl _), if_neg (lt_irrefl _), h2,
      if_neg (lt_irrefl _), if_neg (lt_irrefl _), h3,
      if_neg (lt_irrefl _), if_neg (lt_irrefl _),
      if_neg (show ¬ b.postSuffixNumber < a.postSuffixNumber by omega),
      if_pos h4]
  case _ h1 h2 h3 h4 h5 =>
    rw [h1, if_neg (lt_irrefl _), if_neg (lt_irrefl _), h2,
      if_neg (lt_irrefl _), if_neg (lt_irrefl _), h3,
      if_neg (lt_irrefl _), if_neg (lt_irrefl _), h4,
      if_neg (lt_irrefl _), if_neg (lt_irrefl _),
      if_neg (show ¬ b.revision < a.revision by omega), if_pos h5]

/-- Witness for the amended C1 theorem: `Compare(1.0, 1.0_alpha) = greater`
(so `compare(1.0_alpha, 1.0) < 0` by antisymmetry). -/
theorem compare_tags_amended_witness :
    Compare (Version.mk [1, 0] 0 0 0 0 0 0) (Version.mk [1, 0] 0 1 0 0 0 0) =
      greater :=
  (compare_tags_amended (Version.mk [1, 0] 0 0 0 0 0 0)
    (Version.mk [1, 0] 0 1 0 0 0 0) rfl rfl (by decide) (by decide)
    (by decide) (by decide)).1 rfl (by decide)

/-! ## expandapk Split — member-count classification

The gzip decoding loop of `Split` (expandapk) is byte-stream I/O; what the
claim is about is the classification of the collected gzip members by count
(the `switch numGzipStreams` at the end of `Split`).  `splitClassify` embeds
exactly that switch, over the abstract list of recorded member names. -/

/-- The fields of the Go `SplitAPK` struct that the classification fills in
(`Signed`, `SignatureFile`, `ControlFile`, `PackageFile`), generic in the
stream-name type. -/
structure SplitAPK (α : Type) where
  Signed : Bool
  SignatureFile : Option α
  ControlFile : α
  PackageFile : α
deriving DecidableEq, Repr

/-- The `switch numGzipStreams` of `Split`: 3 members ⇒ signed, control at
index 1; 2 members ⇒ control at index 0; anything else ⇒ error.  The
signature file is `gzipStreams[0]` when signed, the control file is
`gzipStreams[controlDataIndex]` and the package (data) file is
`gzipStreams[controlDataIndex+1]`. -/
def splitClassify {α : Type} (gzipStreams : List α) : Except String (SplitAPK α) :=
  match gzipStreams with
  | [c, d] =>
    .ok { Signed := false, SignatureFile := none, ControlFile := c, PackageFile := d }
  | [s, c, d] =>
    .ok { Signed := true, SignatureFile := some s, ControlFile := c, PackageFile := d }
  | _ =>
    .error ("invalid number of tar streams: " ++ toString gzipStreams.length)

/-- C8: exactly 2 gzip members yield {control, data} in that order, exactly
3 yield {signature, control, data}, and any other member count yields an
error rather than a `SplitAPK` result. -/
theorem split_member_count {α : Type} (c d s : α) (l : List α)
    (h2 : l.length ≠ 2) (h3 : l.length ≠ 3) :
    splitClassify [c, d] =
        .ok { Signed := false, SignatureFile := none, ControlFile := c,
              PackageFile := d } ∧
      splitClassify [s, c, d] =
        .ok { Signed := true, SignatureFile := some s, ControlFile := c,
              PackageFile := d } ∧
      splitClassify l =
        .error ("invalid number of tar streams: " ++ toString l.length) := by
  refine ⟨rfl, rfl, ?_⟩
  rcases l with _ | ⟨a, _ | ⟨b, _ | ⟨e, _ | ⟨f, rest⟩⟩⟩⟩
  · rfl
  · rfl
  · exact absurd rfl h2
  · exact absurd rfl h3
  · rfl

/-- Witness for C8 at concrete inputs (streams named by numbers, and the
empty member list for the error case). -/
theorem split_member_count_witness :
    splitClassify [(1 : Nat), 2] =
        .ok { Signed := false, SignatureFile := none, ControlFile := 1,
              PackageFile := 2 } ∧
      splitClassify [(0 : Nat), 1, 2] =
        .ok { Signed := true, SignatureFile := some 0, ControlFile := 1,
              PackageFile := 2 } ∧
      splitClassify ([] : List Nat) =
        .error ("invalid number of tar streams: " ++
          toString ([] : List Nat).length) :=
  split_member_count 1 2 0 [] (by decide) (by decide)

/-! ## GetRepositoryIndexes — pkg/apk/util.go lines 1176-1352

The network and gzip/tar byte handling is I/O; the embedded units are the
URL construction (`IndexURL`), the URL-scheme switch, the
signature-verification decision (lines 1315-1340) and the per-repository
control flow around parsing and appending the `NamedIndex` (lines
1277-1349), with the fetched artefacts (signature key name, verification
outcome per key, parse outcome) abstracted into a `FetchedRepo` record. -/

/-- The `indexFilename` constant used by `IndexURL`. -/
def indexFilename : String := "APKINDEX.tar.gz"

/-- The `IndexURL` function (util.go lines 1176-1178):
`fmt.Sprintf("%s/%s/%s", repo, arch, indexFilename)`. -/
def IndexURL (repo arch : String) : String :=
  repo ++ "/" ++ arch ++ "/" ++ indexFilename

/-- How the scheme switch of `GetRepositoryIndexes` obtains the index
bytes: a direct `os.ReadFile` for `file`, an HTTP GET (with optional basic
auth from the URL userinfo) for `https`. -/
inductive FetchMethod where
  | fileRead
  | httpsGet
deriving DecidableEq, Repr

/-- The `switch asURL.Scheme` of `GetRepositoryIndexes` (util.go lines
1230-1274): only `file` and `https` have arms; every other scheme falls to
the default arm, `repository scheme %s not supported`. -/
def dispatchScheme (scheme : String) : Except String FetchMethod :=
  if scheme = "file" then .ok .fileRead
  else if scheme = "https" then .ok .httpsGet
  else .error ("repository scheme " ++ scheme ++ " not supported")

/-- C4 counterexample: the schemes `http` and `s3` are not dispatched to
any fetcher — they hit the default arm of the switch and produce the
scheme-not-supported error, contradicting the claim that all four of
file, https, http and s3 succeed in obtaining the index bytes
(`fetchS3` exists in s3.go but has no caller in `GetRepositoryIndexes`). -/
theorem scheme_dispatch_counterexample :
    dispatchScheme "http" = .error "repository scheme http not supported" ∧
      dispatchScheme "s3" = .error "repository scheme s3 not supported" := by
  constructor <;> rfl

/-- C4 amended: the index URL is `<baseURL>/<arch>/APKINDEX.tar.gz`, and
exactly two schemes are supported: `file` (direct read) and `https` (HTTP
fetch); every other scheme — including `http` and `s3` — yields the
scheme-not-supported error. -/
theorem scheme_dispatch_amended (repo arch scheme : String)
    (hf : scheme ≠ "file") (hh : scheme ≠ "https") :
    IndexURL repo arch = repo ++ "/" ++ arch ++ "/" ++ "APKINDEX.tar.gz" ∧
      dispatchScheme "file" = .ok .fileRead ∧
      dispatchScheme "https" = .ok .httpsGet ∧
      dispatchScheme scheme =
        .error ("repository scheme " ++ scheme ++ " not supported") := by
  refine ⟨rfl, rfl, rfl, ?_⟩
  unfold dispatchScheme
  rw [if_neg hf, if_neg hh]

/-- Witness for the amended C4 theorem at the concrete scheme `s3`. -/
theorem scheme_dispatch_amended_witness :
    IndexURL "https://example.invalid/alpine" "x86_64" =
        "https://example.invalid/alpine" ++ "/" ++ "x86_64" ++ "/" ++
          "APKINDEX.tar.gz" ∧
      dispatchScheme "file" = .ok .fileRead ∧
      dispatchScheme "https" = .ok .httpsGet ∧
      dispatchScheme "s3" =
        .error ("repository scheme " ++ "s3" ++ " not supported") :=
  scheme_dispatch_amended "https://example.invalid/alpine" "x86_64" "s3"
    (by decide) (by decide)

/-- The result of `NewNamedRepositoryWithIndex`: the pin name and the
repository base URI the index is associated with. -/
structure NamedIndexModel where
  repoName : String
  repoBase : String
deriving DecidableEq, Repr

/-- One successfully fetched repository, with the byte-level artefacts
abstracted: the key name extracted from the `.SIGN.RSA.<keyname>.rsa.pub`
signature entry, the outcome of `sign.RSAVerifySHA1Digest` per candidate
key, and the outcome of `repository.IndexFromArchive`. -/
structure FetchedRepo (K : Type) where
  repoName : String
  repoBase : String
  sigKeyName : String
  sigVerifiesWith : K → Bool
  parseOk : Bool

/-- The value of `verified` after the first verification attempt (util.go
lines 1323-1329).  The Go code initialises `verified := false`, looks up
the key named in the signature entry and, when it is present, only ever
assigns `verified = false` on a verification failure — a successful
verification does not assign `true`.  The value is therefore `false` on
every path, which this transliteration preserves branch by branch. -/
def verifiedAfterNamedKey {K : Type} (keys : List (String × K))
    (keyName : String) (verifies : K → Bool) : Bool :=
  match keys.lookup keyName with
  | some keyData => if verifies keyData then false else false
  | none => false

/-- The final value of `verified` (util.go lines 1323-1337): after the
named-key attempt, `if !verified` the code scans every key in the keyring
and sets `verified` on the first success. -/
def indexVerified {K : Type} (keys : List (String × K)) (keyName : String)
    (verifies : K → Bool) : Bool :=
  let verified := verifiedAfterNamedKey keys keyName verifies
  if !verified then keys.any (fun kv => verifies kv.2) else verified

/-- The signature-acceptance decision of `GetRepositoryIndexes` (util.go
lines 1320-1340): a nil keyring is rejected outright; otherwise the index
is rejected if and only if `verified` ends up false. -/
def checkIndexSignature {K : Type} (keys : Option (List (String × K)))
    (keyName : String) (verifies : K → Bool) : Except String Unit :=
  match keys with
  | none => .error "no keys provided to verify signature"
  | some ks =>
    if indexVerified ks keyName verifies then .ok ()
    else .error ("no key found to verify signature for keyfile " ++ keyName ++
      "; tried all other keys as well")

/-- The per-repository tail of the `GetRepositoryIndexes` loop body
(util.go lines 1276-1349).  Faithful to the braces of the source: the
conversion of the bytes to an `ApkIndex` and the `indexes = append(...)`
both sit *inside* the `if !opts.ignoreSignatures` block, so when
`ignoreSignatures` is true nothing at all is appended for the
repository. -/
def processFetchedRepo {K : Type} (ignoreSignatures : Bool)
    (keys : Option (List (String × K))) (r : FetchedRepo K) :
    Except String (List NamedIndexModel) :=
  if !ignoreSignatures then
    match checkIndexSignature keys r.sigKeyName r.sigVerifiesWith with
    | .error e => .error e
    | .ok _ =>
      if r.parseOk then .ok [{ repoName := r.repoName, repoBase := r.repoBase }]
      else .error "unable to read convert repository index bytes to index struct"
  else
    .ok []

/-- The `for _, repo := range repos` loop of `GetRepositoryIndexes`,
accumulating the appended `NamedIndex` values and propagating the first
error. -/
def getRepositoryIndexes {K : Type} (ignoreSignatures : Bool)
    (keys : Option (List (String × K))) (repos : List (FetchedRepo K)) :
    Except String (List NamedIndexModel) :=
  match repos with
  | [] => .ok []
  | r :: rest =>
    match processFetchedRepo ignoreSignatures keys r with
    | .error e => .error e
    | .ok ns =>
      match getRepositoryIndexes ignoreSignatures keys rest with
      | .error e => .error e
      | .ok more => .ok (ns ++ more)

/-- C2, evaluated at the failing input: a repository whose APKINDEX bytes
are fetched, whose signature verifies against the sole keyring key, and
whose payload parses.  With `ignoreSignatures = true` the function returns
an *empty* index list — no `NamedIndex` is appended, because the append
statement sits inside the `if !opts.ignoreSignatures` block — while the
signature-verified run appends the expected `NamedIndex`.  This contradicts
the claim (and the function's own doc comment, which promises the indexes
with verification merely skipped), so the code, not the claim, is wrong. -/
theorem ignore_signatures_drops_index :
    getRepositoryIndexes true (some [("key", ())])
        [{ repoName := "", repoBase := "https://example.invalid/alpine/x86_64",
           sigKeyName := "key", sigVerifiesWith := fun _ => true,
           parseOk := true }] = .ok [] ∧
      getRepositoryIndexes false (some [("key", ())])
        [{ repoName := "", repoBase := "https://example.invalid/alpine/x86_64",
           sigKeyName := "key", sigVerifiesWith := fun _ => true,
           parseOk := true }] =
        .ok [{ repoName := "",
               repoBase := "https://example.invalid/alpine/x86_64" }] := by
  constructor <;> rfl

/-- C5: index signature verification accepts exactly when at least one key
in the keyring verifies the signature.  A nil keyring is rejected with its
own error; with a keyring present, `checkIndexSignature` returns ok if and
only if some key in it verifies — the key named in the signature entry is
tried first (its success is discarded by the `verified = false` slip, see
`verifiedAfterNamedKey`), after which the loop over the whole keyring makes
the outcome depend only on whether any key verifies. -/
theorem signature_verification_iff {K : Type} (ks : List (String × K))
    (keyName : String) (verifies : K → Bool) :
    checkIndexSignature (none : Option (List (String × K))) keyName verifies =
        .error "no keys provided to verify signature" ∧
      (checkIndexSignature (some ks) keyName verifies = .ok () ↔
        ∃ kv ∈ ks, verifies kv.2 = true) := by
  refine ⟨rfl, ?_⟩
  have hv : verifiedAfterNamedKey ks keyName verifies = false := by
    unfold verifiedAfterNamedKey
    cases ks.lookup keyName with
    | none => rfl
    | some k => by_cases h : verifies k <;> simp [h]
  have hiv : indexVerified ks keyName verifies =
      ks.any (fun kv => verifies kv.2) := by
    unfold indexVerified
    rw [hv]
    rfl
  have hmain : checkIndexSignature (some ks) keyName verifies = .ok () ↔
      ks.any (fun kv => verifies kv.2) = true := by
    simp only [checkIndexSignature, hiv]
    by_cases h : ks.any (fun kv => verifies kv.2) = true <;> simp [h]
  exact hmain.trans List.any_eq_true

/-! ## cacheTransport — pkg/apk/cache.go

The cache directory is embedded as an association list from path to file
contents.  `roundTripEtagFree` embeds the `!t.etagRequired` branch of
`RoundTrip` (lines 65-82); `retrieveAndSaveFile` embeds lines 189-237
(used only on the ETag-required path). -/

/-- Lookup of a path in the cache directory (`os.Open`). -/
def lookupFile (fs : List (String × String)) (p : String) : Option String :=
  match fs with
  | [] => none
  | (q, body) :: rest => if q = p then some body else lookupFile rest p

/-- The observable outcome of a cache-transport round trip: a 200 response
with a handle to a cache file of the given contents, a request forwarded to
the wrapped client (response not written to the cache), or an error. -/
inductive RoundTripOutcome where
  | hit (body : String)
  | forwarded
  | rtError (msg : String)
deriving DecidableEq, Repr

/-- The ETag-free branch of `cacheTransport.RoundTrip` (cache.go lines
65-82): try to open `cacheFile`; on success return 200 with its handle; on
a miss fail when offline, and otherwise just run `t.wrapped.Do(request)` —
the source comments that such responses are cached later by
`cachePackage`, so nothing is written here.  The second component is the
cache state after the call. -/
def roundTripEtagFree (fs : List (String × String)) (offline : Bool)
    (cacheFile : String) : RoundTripOutcome × List (String × String) :=
  match lookupFile fs cacheFile with
  | some body => (.hit body, fs)
  | none =>
    if offline then
      (.rtError ("failed to read " ++ cacheFile ++ " in offline cache"), fs)
    else (.forwarded, fs)

/-- Renaming one file of the cache directory (`os.Rename`, cache.go
line 226). -/
def renameFile (fs : List (String × String)) (oldName newName : String) :
    List (String × String) :=
  fs.map (fun entry => if entry.1 = oldName then (newName, entry.2) else entry)

/-- Function `cacheTransport.retrieveAndSaveFile` (cache.go lines 189-237), invoked
only from the ETag-required path of `RoundTrip`: do the origin request; a
non-200 response is passed through untouched; a 200 body is streamed into
a fresh `*.tmp` file in the cache directory, the temp file is atomically
renamed onto the final cache path, and a handle to the cache file is
returned. -/
def retrieveAndSaveFile (fs : List (String × String)) (originStatus : Int)
    (originBody : String) (tmpName cacheFile : String) :
    RoundTripOutcome × List (String × String) :=
  if originStatus ≠ 200 then (.forwarded, fs)
  else
    let staged := (tmpName, originBody) :: fs
    (.hit originBody, renameFile staged tmpName cacheFile)

/-- Renaming a name that no cache entry carries leaves the directory
unchanged. -/
theorem renameFile_of_lookup_none (fs : List (String × String))
    (t n : String) (h : lookupFile fs t = none) : renameFile fs t n = fs := by
  induction fs with
  | nil => rfl
  | cons e rest ih =>
    obtain ⟨q, body⟩ := e
    simp only [lookupFile] at h
    by_cases hq : q = t
    · rw [if_pos hq] at h; exact absurd h (by simp)
    · rw [if_neg hq] at h
      simp only [renameFile, List.map_cons, if_neg hq]
      exact congrArg (List.cons (q, body)) (ih h)

/-- C3 counterexample: in ETag-free mode with an empty cache (so the
derived cachePath does not exist) and offline disabled, `RoundTrip` simply
forwards the request to the wrapped client and the cache is left
untouched — no `*.tmp` staging, no rename, and no fresh handle to a newly
cached file, contradicting the claim's "otherwise" branch. -/
theorem etag_free_miss_counterexample :
    roundTripEtagFree [] false "cache/repo/x86_64/foo.apk" =
        (.forwarded, []) ∧
      lookupFile (roundTripEtagFree [] false "cache/repo/x86_64/foo.apk").2
        "cache/repo/x86_64/foo.apk" = none := by
  constructor <;> rfl

/-- C3 amended: in ETag-free mode a round trip returns 200 with a handle
to the existing cache file whenever the derived cachePath exists; on a
miss it fails in offline mode and otherwise forwards the request to the
origin *without caching the body* (APK bodies are cached later by
`cachePackage`).  The stream-to-temp-and-atomically-rename behaviour
belongs to `retrieveAndSaveFile`, which only the ETag-required mode uses:
there, a 200 origin body is staged to a `*.tmp` file, renamed onto
cachePath — so afterwards cachePath holds the body and no temp file
remains — and a fresh handle is returned. -/
theorem etag_free_amended (fs : List (String × String)) (cacheFile : String)
    (body : String) (tmpName : String) (status : Int) :
    (∀ b, lookupFile fs cacheFile = some b →
      roundTripEtagFree fs true cacheFile = (.hit b, fs) ∧
        roundTripEtagFree fs false cacheFile = (.hit b, fs)) ∧
      (lookupFile fs cacheFile = none →
        roundTripEtagFree fs true cacheFile =
          (.rtError ("failed to read " ++ cacheFile ++ " in offline cache"),
            fs)) ∧
      (lookupFile fs cacheFile = none →
        roundTripEtagFree fs false cacheFile = (.forwarded, fs)) ∧
      (lookupFile fs tmpName = none →
        retrieveAndSaveFile fs 200 body tmpName cacheFile =
          (.hit body, (cacheFile, body) :: fs)) ∧
      (status ≠ 200 →
        retrieveAndSaveFile fs status body tmpName cacheFile =
          (.forwarded, fs)) := by
  refine ⟨?_, ?_, ?_, ?_, ?_⟩
  · intro b hb
    constructor <;> simp [roundTripEtagFree, hb]
  · intro hn
    simp [roundTripEtagFree, hn]
  · intro hn
    simp [roundTripEtagFree, hn]
  · intro ht
    have hr := renameFile_of_lookup_none fs tmpName cacheFile ht
    simp only [renameFile] at hr
    simp [retrieveAndSaveFile, renameFile, hr]
  · intro hs
    simp [retrieveAndSaveFile, hs]

/-- Witness for the amended C3 theorem: a one-entry cache serves the entry
on both offline and online paths, and `retrieveAndSaveFile` publishes a
fetched body at the cache path. -/
theorem etag_free_amended_witness :
    (roundTripEtagFree [("c/a.apk", "bytes")] true "c/a.apk" =
        (.hit "bytes", [("c/a.apk", "bytes")]) ∧
      roundTripEtagFree [("c/a.apk", "bytes")] false "c/a.apk" =
        (.hit "bytes", [("c/a.apk", "bytes")])) ∧
      retrieveAndSaveFile [] 200 "payload" "c/123.tmp" "c/APKINDEX/e.tar.gz" =
        (.hit "payload", [("c/APKINDEX/e.tar.gz", "payload")]) :=
  ⟨(etag_free_amended [("c/a.apk", "bytes")] "c/a.apk" "payload" "c/123.tmp"
      200).1 "bytes" rfl,
    ((etag_free_amended [] "c/APKINDEX/e.tar.gz" "payload" "c/123.tmp"
      200).2.2.2.1) rfl⟩

/-! ## Installer overlap policy (modelled from the spec)

The installer (`installAPKFiles` and its per-entry overlap check) is code
of this repository that is not under src/ — only its test,
pkg/apk/install_test.go, is.  The policy is therefore modelled from the
spec (§4.7 step 3) and checked against the four behaviours the test
exercises. -/

/-- Modelled from the spec: the record the InstalledDB holds for an
existing file at a destination path — the origin and name of the package
that installed it, and the file's current bytes. -/
structure PriorFile where
  origin : String
  pkgName : String
  content : String
deriving DecidableEq, Repr

/-- Modelled from the spec: the outcome of applying one data-tar entry —
an optional overlap-conflict error, and the bytes the destination file
holds afterwards. -/
structure ApplyOutcome where
  conflict : Option String
  fileContent : String
deriving DecidableEq, Repr

/-- Modelled from the spec (§4.7, overlap policy; missing from src/ —
`installAPKFiles` is absent, only install_test.go is present): if the
destination path exists and was recorded to a different package whose
origin differs from the current one, and the current package's `replaces`
does not list that prior package, and the new bytes differ from the old
bytes, abort with overlap-conflict and do not modify the file; same-origin
and same-content overlaps, and overlaps whose prior package is listed in
`replaces`, are silently overwritten. -/
def applyDataEntry (prior : Option PriorFile) (curOrigin : String)
    (replaces : List String) (newContent : String) : ApplyOutcome :=
  match prior with
  | none => { conflict := none, fileContent := newContent }
  | some p =>
    if p.origin = curOrigin then { conflict := none, fileContent := newContent }
    else if p.pkgName ∈ replaces then
      { conflict := none, fileContent := newContent }
    else if p.content = newContent then
      { conflict := none, fileContent := newContent }
    else { conflict := some "overlap-conflict", fileContent := p.content }

/-- C6: applying a data-tar entry over a file recorded to a prior package
of different origin, not listed in `replaces`, with different bytes, fails
with overlap-conflict and leaves the existing bytes unchanged; when the
origins are equal, or the prior package is listed in `replaces`, or the
bytes are identical, the apply succeeds without error. -/
theorem overlap_policy (p : PriorFile) (curOrigin : String)
    (replaces : List String) (newContent : String) :
    (p.origin ≠ curOrigin → p.pkgName ∉ replaces → p.content ≠ newContent →
      applyDataEntry (some p) curOrigin replaces newContent =
        { conflict := some "overlap-conflict", fileContent := p.content }) ∧
      (p.origin = curOrigin →
        applyDataEntry (some p) curOrigin replaces newContent =
          { conflict := none, fileContent := newContent }) ∧
      (p.pkgName ∈ replaces →
        applyDataEntry (some p) curOrigin replaces newContent =
          { conflict := none, fileContent := newContent }) ∧
      (p.content = newContent →
        applyDataEntry (some p) curOrigin replaces newContent =
          { conflict := none, fileContent := newContent }) := by
  refine ⟨?_, ?_, ?_, ?_⟩ <;>
    · intros
      simp only [applyDataEntry]
      split_ifs <;> simp_all

/-- Witness for C6, mirroring the `overlapping files` sub-tests of
TestInstallAPKFiles: the conflicting overwrite fails and keeps the original
bytes; the same-origin, replaces and same-content overwrites succeed. -/
theorem overlap_policy_witness :
    applyDataEntry (some (PriorFile.mk "first" "first" "hello world"))
        "second" [] "extra long I am here" =
      ApplyOutcome.mk (some "overlap-conflict") "hello world" :=
  (overlap_policy (PriorFile.mk "first" "first" "hello world") "second" []
    "extra long I am here").1 (by decide) (by decide) (by decide)

/-! ## tarfs — src/unnamed/part_001 (package tarfs)

`TarEntry` carries the two fields of `Entry` the file operations use: the
stored size (`Header.Size`) and the absolute offset of the entry's data
region.  The underlying stream handle (the `io.ReadSeekCloser` produced by
`fsys.open()`) is a position plus a total stream size, with POSIX seek
semantics. -/

/-- The per-entry data of a tarfs `Entry`: `Header.Size` and `Offset`. -/
structure TarEntry where
  size : Int
  offset : Int
deriving DecidableEq, Repr

/-- Go constant `io.SeekStart` (0). -/
def seekStart : Int := 0

/-- Go constant `io.SeekCurrent` (1). -/
def seekCurrent : Int := 1

/-- Go constant `io.SeekEnd` (2). -/
def seekEnd : Int := 2

/-- Method `File.relativeOffset` (part_001 lines 229-246), transliterated from the
`switch whence`: `SeekCurrent` returns the offset unchecked; `SeekStart`
rejects `offset > size`; `SeekEnd` rejects `offset + size < 0`; any other
whence is invalid; the surviving `SeekStart`/`SeekEnd` cases (and the
early-returning `SeekCurrent` case) produce `Entry.Offset + offset`
respectively the raw offset. -/
def relativeOffset (e : TarEntry) (offset whence : Int) : Except String Int :=
  if whence = seekCurrent then .ok offset
  else if whence = seekStart then
    if offset > e.size then
      .error ("offset " ++ toString offset ++ " greater than file size " ++
        toString e.size)
    else .ok (e.offset + offset)
  else if whence = seekEnd then
    if offset + e.size < 0 then
      .error ("offset " ++ toString offset ++ " greater than file size " ++
        toString e.size)
    else .ok (e.offset + offset)
  else .error ("invalid whence: " ++ toString whence)

/-- The underlying seekable stream handle: current position and total
stream size. -/
structure StreamHandle where
  pos : Int
  size : Int
deriving DecidableEq, Repr

/-- Seek on the underlying handle with the POSIX semantics of `os.File`:
the target is absolute for `SeekStart`, relative to the current position
for `SeekCurrent`, relative to the stream end for `SeekEnd`; a negative
resulting position is an error; the new absolute position is returned. -/
def streamSeek (h : StreamHandle) (offset whence : Int) :
    Except String (StreamHandle × Int) :=
  let newPos :=
    if whence = seekStart then offset
    else if whence = seekCurrent then h.pos + offset
    else h.size + offset
  if newPos < 0 then .error "negative seek position"
  else .ok ({ h with pos := newPos }, newPos)

/-- Method `File.Seek` (part_001 lines 248-260): compute `relativeOffset`, then
call `f.handle.Seek(newOffset, whence)` — note the *original* whence is
passed through — and return the underlying position minus the entry
offset. -/
def fileSeek (e : TarEntry) (h : StreamHandle) (offset whence : Int) :
    Except String (StreamHandle × Int) :=
  match relativeOffset e offset whence with
  | .error err => .error err
  | .ok newOffset =>
    match streamSeek h newOffset whence with
    | .error err => .error err
    | .ok (h2, n) => .ok (h2, n - e.offset)

/-- The `io.LimitReader(rc, e.Header.Size)` wrapper installed by `FS.Open`
(part_001 lines 300-316): a sequence of reads with the given request sizes
returns, in total, at most the remaining budget; each read returns
`min request (max remaining 0)` bytes. -/
def readTotal : Int → List Nat → Int
  | _, [] => 0
  | remaining, n :: rest =>
    let got := min (n : Int) (max remaining 0)
    got + readTotal (remaining - got) rest

/-- A limit reader never hands out more than its initial budget. -/
theorem readTotal_le : ∀ (reqs : List Nat) (remaining : Int),
    readTotal remaining reqs ≤ max remaining 0 := by
  intro reqs
  induction reqs with
  | nil => intro remaining; simp [readTotal]
  | cons n rest ih =>
    intro remaining
    simp only [readTotal]
    have h := ih (remaining - min (n : Int) (max remaining 0))
    have hn : (0 : Int) ≤ (n : Int) := Int.natCast_nonneg n
    omega

/-- C9 counterexample: an entry of stored size 5 at data offset 10, an
underlying stream at position 30.  `Seek(100, io.SeekCurrent)` succeeds —
no bounds validation at all on the `SeekCurrent` path — moving the
underlying stream to 130 (current + 100, *not* the entry offset plus the
requested position, which would be 110) and reporting in-file position
120, far beyond the entry's 5-byte bounds, with no error.  This refutes
both the \"validating ... for each whence value\" and the \"translated into
an absolute seek by adding the entry's data offset\" parts of the claim. -/
theorem file_seek_counterexample :
    fileSeek (TarEntry.mk 5 10) (StreamHandle.mk 30 100) 100 seekCurrent =
        .ok (StreamHandle.mk 130 100, 120) ∧
      (120 : Int) > (5 : Int) ∧
      (130 : Int) ≠ (10 : Int) + 100 := by
  refine ⟨rfl, by decide, by decide⟩

/-- C9 amended: `Read` is bounded by the entry's stored size (the limit
reader installed by `Open` hands out at most `size` bytes in total); `Seek`
validates the offset against the entry's bounds only for `SeekStart`
(upper bound) and `SeekEnd` (lower bound), rejects invalid whence values,
adds the entry's data offset to the requested position for `SeekStart` and
`SeekEnd`, and passes the original whence through to the underlying
stream's seek — so only `SeekStart` lands on the absolute position
`entry offset + offset`; `SeekCurrent` offsets are passed through with no
validation; the returned position is the underlying position minus the
entry offset. -/
theorem file_seek_amended (e : TarEntry) (h : StreamHandle) (offset : Int) :
    (∀ reqs : List Nat, 0 ≤ e.size → readTotal e.size reqs ≤ e.size) ∧
      (offset ≤ e.size → 0 ≤ e.offset + offset →
        fileSeek e h offset seekStart =
          .ok ({ h with pos := e.offset + offset },
            e.offset + offset - e.offset)) ∧
      (offset > e.size →
        fileSeek e h offset seekStart =
          .error ("offset " ++ toString offset ++ " greater than file size " ++
            toString e.size)) ∧
      (0 ≤ offset + e.size → 0 ≤ h.size + (e.offset + offset) →
        fileSeek e h offset seekEnd =
          .ok ({ h with pos := h.size + (e.offset + offset) },
            h.size + (e.offset + offset) - e.offset)) ∧
      (offset + e.size < 0 →
        fileSeek e h offset seekEnd =
          .error ("offset " ++ toString offset ++ " greater than file size " ++
            toString e.size)) ∧
      (0 ≤ h.pos + offset →
        fileSeek e h offset seekCurrent =
          .ok ({ h with pos := h.pos + offset }, h.pos + offset - e.offset)) ∧
      (∀ w : Int, w ≠ 0 → w ≠ 1 → w ≠ 2 →
        fileSeek e h offset w = .error ("invalid whence: " ++ toString w)) := by
  refine ⟨?_, ?_, ?_, ?_, ?_, ?_, ?_⟩
  · intro reqs hs
    have := readTotal_le reqs e.size
    omega
  · intro h1 h2
    have hro : relativeOffset e offset seekStart = .ok (e.offset + offset) := by
      simp only [relativeOffset, seekStart, seekCurrent, seekEnd, Int.reduceEq,
        reduceIte]
      rw [if_neg (by omega : ¬ offset > e.size)]
    have hss : streamSeek h (e.offset + offset) seekStart =
        .ok ({ h with pos := e.offset + offset }, e.offset + offset) := by
      simp only [streamSeek, seekStart, seekCurrent, seekEnd, Int.reduceEq,
        reduceIte]
      rw [if_neg (by omega : ¬ e.offset + offset < 0)]
    simp [fileSeek, hro, hss]
  · intro h1
    have hro : relativeOffset e offset seekStart =
        .error ("offset " ++ toString offset ++ " greater than file size " ++
          toString e.size) := by
      simp only [relativeOffset, seekStart, seekCurrent, seekEnd, Int.reduceEq,
        reduceIte]
      rw [if_pos h1]
    simp [fileSeek, hro]
  · intro h1 h2
    have hro : relativeOffset e offset seekEnd = .ok (e.offset + offset) := by
      simp only [relativeOffset, seekStart, seekCurrent, seekEnd, Int.reduceEq,
        reduceIte]
      rw [if_neg (by omega : ¬ offset + e.size < 0)]
    have hss : streamSeek h (e.offset + offset) seekEnd =
        .ok ({ h with pos := h.size + (e.offset + offset) },
          h.size + (e.offset + offset)) := by
      simp only [streamSeek, seekStart, seekCurrent, seekEnd, Int.reduceEq,
        reduceIte]
      rw [if_neg (by omega : ¬ h.size + (e.offset + offset) < 0)]
    simp [fileSeek, hro, hss]
  · intro h1
    have hro : relativeOffset e offset seekEnd =
        .error ("offset " ++ toString offset ++ " greater than file size " ++
          toString e.size) := by
      simp only [relativeOffset, seekStart, seekCurrent, seekEnd, Int.reduceEq,
        reduceIte]
      rw [if_pos h1]
    simp [fileSeek, hro]
  · intro h1
    have hro : relativeOffset e offset seekCurrent = .ok offset := by
      simp only [relativeOffset, seekStart, seekCurrent, seekEnd, Int.reduceEq,
        reduceIte]
    have hss : streamSeek h offset seekCurrent =
        .ok ({ h with pos := h.pos + offset }, h.pos + offset) := by
      simp only [streamSeek, seekStart, seekCurrent, seekEnd, Int.reduceEq,
        reduceIte]
      rw [if_neg (by omega : ¬ h.pos + offset < 0)]
    simp [fileSeek, hro, hss]
  · intro w hw0 hw1 hw2
    have hro : relativeOffset e offset w =
        .error ("invalid whence: " ++ toString w) := by
      simp only [relativeOffset, seekStart, seekCurrent, seekEnd]
      rw [if_neg hw1, if_neg hw0, if_neg hw2]
    simp [fileSeek, hro]

/-- Witness for the amended C9 theorem: a bounded read sequence, an
in-bounds SeekStart, and an invalid whence, all at concrete values. -/
theorem file_seek_amended_witness :
    readTotal (5 : Int) [3, 3, 3] ≤ (5 : Int) ∧
      fileSeek (TarEntry.mk 5 10) (StreamHandle.mk 0 100) 3 seekStart =
        .ok (StreamHandle.mk 13 100, 13 - 10) ∧
      fileSeek (TarEntry.mk 5 10) (StreamHandle.mk 0 100) 3 7 =
        .error ("invalid whence: " ++ toString (7 : Int)) :=
  ⟨(file_seek_amended (TarEntry.mk 5 10) (StreamHandle.mk 0 100) 3).1
      [3, 3, 3] (by decide),
    (file_seek_amended (TarEntry.mk 5 10) (StreamHandle.mk 0 100) 3).2.1
      (by decide) (by decide),
    (file_seek_amended (TarEntry.mk 5 10) (StreamHandle.mk 0 100) 3).2.2.2.2.2.2
      7 (by decide) (by decide) (by decide)⟩

/-- The possible outcomes of `File.ReadAt` on the `io.ReaderAt` path: a Go
runtime panic (slice bounds out of range), or a call of the underlying
`ReadAt` with an `n`-byte buffer at the given absolute offset. -/
inductive ReadAtOutcome where
  | panicked
  | read (n : Int) (absOff : Int)
deriving DecidableEq, Repr

/-- Method `File.ReadAt` (part_001 lines 262-279) on the `io.ReaderAt` path:
`bytesLeft := f.Entry.Header.Size - off`; when `len(p) > bytesLeft` the
buffer is re-sliced to `p[:bytesLeft]` — a Go slice expression that
*panics* at runtime when `bytesLeft` is negative — and then
`ra.ReadAt(p, f.Entry.Offset+off)` is invoked. -/
def fileReadAt (e : TarEntry) (plen : Nat) (off : Int) : ReadAtOutcome :=
  let bytesLeft := e.size - off
  if (plen : Int) > bytesLeft then
    if bytesLeft < 0 then .panicked
    else .read bytesLeft (e.offset + off)
  else .read plen (e.offset + off)

/-- C10, evaluated at the failing input: for an entry of stored size 5,
`ReadAt(p, 6)` panics — `bytesLeft = -1` and the re-slice `p[:bytesLeft]`
is a slice-bounds-out-of-range runtime panic, not an error return — even
with an empty buffer.  At `off = 5` (the boundary) and below, the call is
well-behaved and reads at most `size - off` bytes. -/
theorem read_at_panic :
    fileReadAt (TarEntry.mk 5 0) 0 6 = .panicked ∧
      fileReadAt (TarEntry.mk 5 0) 4 6 = .panicked ∧
      fileReadAt (TarEntry.mk 5 0) 0 5 = .read 0 5 ∧
      fileReadAt (TarEntry.mk 5 0) 3 4 = .read 1 4 ∧
      fileReadAt (TarEntry.mk 5 0) 2 1 = .read 2 1 := by
  decide

end GoApk
